import Mathlib

/-!
Verification of the visual-review pipeline in
`ai-agents-py/reviewer/review.py` (BalanceAI).

The pipeline captures a screenshot per viewport, compares it against a
stored reference image with `mismatch_ratio`, saves a visual diff, and
writes a single markdown report at the end of the run.

We shallowly embed the image operations used by the script (Pillow's
`ImageChops.difference`, `convert("L")` and `resize`) and the control flow
of `main`, making Python exception propagation explicit with `Except`.
-/

namespace Review

/-- A pixel of an image decoded with `.convert("RGBA")`: four 8-bit
channels (we use `Nat`; channel values of decoded images are < 256, and no
operation modelled here overflows, since absolute difference never
exceeds its arguments). -/
structure RGBA where
  r : Nat
  g : Nat
  b : Nat
  a : Nat
deriving DecidableEq

/-- A raster image in RGBA mode: dimensions and a pixel lookup.
`pix x y` is the pixel at column `x`, row `y`. -/
structure Image where
  width : Nat
  height : Nat
  pix : Nat → Nat → RGBA

/-- `im.size` in PIL: the `(width, height)` pair. -/
def Image.size (im : Image) : Nat × Nat := (im.width, im.height)

/-- A single-band ("L" mode) image: one 8-bit intensity per pixel. -/
structure ImageL where
  width : Nat
  height : Nat
  pix : Nat → Nat → Nat

/-- `getdata()` of an "L" image: the pixel values row-major
(top row first), as iterated by `review.py`'s generator expression. -/
def ImageL.getdata (im : ImageL) : List Nat :=
  (List.range im.height).flatMap fun y =>
    (List.range im.width).map fun x => im.pix x y

/-- Per-channel absolute difference of two RGBA pixels, as computed by
Pillow's `ImageChops.difference` (chop_difference: `abs(a - b)` on every
band, the alpha band included). -/
def chDiff (p q : RGBA) : RGBA :=
  ⟨Nat.dist p.r q.r, Nat.dist p.g q.g, Nat.dist p.b q.b, Nat.dist p.a q.a⟩

/-- The pixelwise absolute-difference image of two equal-sized images. -/
def diffImage (a b : Image) : Image :=
  ⟨a.width, a.height, fun x y => chDiff (a.pix x y) (b.pix x y)⟩

/-- Pillow's `ImageChops.difference`: requires the two images to have the
same size, raising `ValueError("images do not match")` otherwise. -/
def ImageChops_difference (a b : Image) : Except String Image :=
  if a.size = b.size then .ok (diffImage a b) else .error "images do not match"

/-- ITU-R 601-2 luminance as computed by Pillow's RGBA→L conversion
(`convert.c`, `rgb2l`): `(19595*R + 38470*G + 7471*B) >> 16`; the alpha
byte is not read. -/
def luma (p : RGBA) : Nat :=
  (19595 * p.r + 38470 * p.g + 7471 * p.b) / 65536

/-- `convert("L")` on an RGBA image: collapse each pixel to its luminance. -/
def Image.convertL (im : Image) : ImageL :=
  ⟨im.width, im.height, fun x y => luma (im.pix x y)⟩

/-- Modelled from the spec: Pillow's `Image.resize` (library code, not in
the repository) — "the reference is resized to match the candidate's
dimensions". We model nearest-neighbour sampling; the claims depend only
on the output having exactly the requested dimensions. -/
def Image.resize (im : Image) (w h : Nat) : Image :=
  ⟨w, h, fun x y => im.pix (x * im.width / w) (y * im.height / h)⟩

/-- `THRESHOLD`: the configured mismatch-ratio bound, default `0.01`.
Ratios and the threshold are modelled as exact rationals. -/
def THRESHOLD : ℚ := 1 / 100

/-- `mismatch_ratio(im1, im2)` from `review.py`: resize `im2` to `im1`'s
size when the sizes differ, take the absolute difference, convert it to
"L", and return the fraction of pixels whose intensity difference is
nonzero. A raised exception is an `Except.error`. -/
def mismatch_ratio (im1 im2 : Image) : Except String ℚ :=
  let im2' := if im1.size ≠ im2.size then im2.resize im1.width im1.height else im2
  match ImageChops_difference im1 im2' with
  | .error msg => .error msg
  | .ok d =>
    let diffL := d.convertL
    let total := diffL.width * diffL.height
    let nonzero := diffL.getdata.countP (fun px => px != 0)
    .ok ((nonzero : ℚ) / (total : ℚ))

/-- Pass/Fail outcome of a comparison. -/
inductive Status where
  | pass
  | fail
deriving DecidableEq

/-- The decision rule on line 53 of `review.py`:
`status = "❌ Fail" if ratio > THRESHOLD else "✅ Pass"`. -/
def status_of (ratio : ℚ) : Status :=
  if ratio > THRESHOLD then .fail else .pass

/-- One report section, as appended by `main` for each viewport: either
the "Reference not found … Skipping." note or a compared section with the
mismatch ratio and the Pass/Fail status. -/
inductive ReportSection where
  | skipped (label : String)
  | compared (label : String) (ratio : ℚ) (status : Status)
deriving DecidableEq

/-- The viewport label a section is about. -/
def sectionLabel : ReportSection → String
  | .skipped l => l
  | .compared l _ _ => l

/-- An entry of the written report: the fixed header line, a per-viewport
section, or the fixed trailing hints block. -/
inductive ReportEntry where
  | header
  | viewportSection (s : ReportSection)
  | hints
deriving DecidableEq

/-- The externally observable writes of one run: each write of
`report.md` (its entries in order), and the labels whose
`diff-<label>.png` was saved. -/
structure RunResult where
  reportWrites : List (List ReportEntry)
  diffs : List String
deriving DecidableEq

/-- `VIEWPORTS` from `review.py`: the ordered viewport registry. -/
def VIEWPORTS : List (String × Nat × Nat) :=
  [("desktop", 1440, 900), ("mobile", 390, 844)]

/-- The environment one viewport's iteration runs against: whether the
playwright capture (`screenshot`) succeeds, whether the reference file
exists, and the RGBA-decoded candidate and reference images. -/
structure ViewportEnv where
  shotOk : Bool
  refExists : Bool
  actualImg : Image
  refImg : Image

/-- The `screenshot` call of `review.py`: browser automation is external,
so the environment decides whether it succeeds or raises. -/
def screenshot (e : ViewportEnv) : Except String Unit :=
  if e.shotOk then .ok () else .error "screenshot failed"

/-- One iteration of `main`'s loop over `VIEWPORTS`: capture, skip when
the reference is missing, otherwise score with `mismatch_ratio`, save the
diff produced by `ImageChops.difference` on the (unresized) images, and
build the section.  Returns the section appended to the report and
whether the diff artifact was saved; an uncaught Python exception is an
`Except.error`. -/
def processViewport (e : ViewportEnv) (label : String) :
    Except String (ReportSection × Bool) :=
  match screenshot e with
  | .error msg => .error msg
  | .ok () =>
    if e.refExists = false then
      .ok (ReportSection.skipped label, false)
    else
      match mismatch_ratio e.actualImg e.refImg with
      | .error msg => .error msg
      | .ok ratio =>
        match ImageChops_difference e.actualImg e.refImg with
        | .error msg => .error msg
        | .ok _d => .ok (ReportSection.compared label ratio (status_of ratio), true)

/-- `main`'s loop: process the viewports in registry order, accumulating
report sections and saved diffs; the first uncaught exception aborts the
whole loop. -/
def runViewports (env : String → ViewportEnv) :
    List (String × Nat × Nat) → Except String (List ReportSection × List String)
  | [] => .ok ([], [])
  | (label, _w, _h) :: rest =>
    match processViewport (env label) label with
    | .error msg => .error msg
    | .ok (sec, saved) =>
      match runViewports env rest with
      | .error msg => .error msg
      | .ok (secs, diffs) =>
        .ok (sec :: secs, (if saved then [label] else []) ++ diffs)

/-- `main()` of `review.py`: run every viewport, then write `report.md`
exactly once — the header, one section per viewport in order, and the
static hints block.  If any iteration raises, the run aborts and nothing
is written. -/
def main (env : String → ViewportEnv) : Except String RunResult :=
  match runViewports env VIEWPORTS with
  | .error msg => .error msg
  | .ok (secs, diffs) =>
    .ok { reportWrites :=
            [[ReportEntry.header] ++ secs.map ReportEntry.viewportSection
              ++ [ReportEntry.hints]],
          diffs := diffs }

/-- The candidate/reference pixel pairs of two images, row-major over the
candidate's dimensions (the index set both `mismatch_ratio`'s difference
image and the spec's strict metric range over). -/
def pixelPairs (a b : Image) : List (RGBA × RGBA) :=
  (List.range a.height).flatMap fun y =>
    (List.range a.width).map fun x => (a.pix x y, b.pix x y)

/-- The metric as the spec's words describe it ("fraction of pixels whose
computed difference is non-zero across all channels", "a strict any
channel differs metric"): the fraction of pixels at which the two images
differ in at least one channel.  Stated from the spec only, to be compared
against the implemented `mismatch_ratio`. -/
def spec_mismatch_ratio (a b : Image) : ℚ :=
  (((pixelPairs a b).countP (fun pq => pq.1 != pq.2) : Nat) : ℚ)
    / ((a.width * a.height : Nat) : ℚ)

/-- The reference image after `mismatch_ratio`'s normalization: resized to
the candidate's dimensions when the sizes differ (names the `let`-bound
image inside `mismatch_ratio`). -/
def normRef (a b : Image) : Image :=
  if a.size ≠ b.size then b.resize a.width a.height else b

/-- A 1×1 opaque black image. -/
def unitImage : Image := ⟨1, 1, fun _ _ => ⟨0, 0, 0, 255⟩⟩

/-- A 2×2 opaque black image (same content as `unitImage`, other size). -/
def twoImage : Image := ⟨2, 2, fun _ _ => ⟨0, 0, 0, 255⟩⟩

/-- A 1×1 image whose only pixel differs from `unitImage`'s by 1 in the
red channel alone. -/
def almostBlackImage : Image := ⟨1, 1, fun _ _ => ⟨1, 0, 0, 255⟩⟩

/-- A 1×1 image with the RGB of `unitImage` but a fully transparent
alpha channel. -/
def alphaZeroImage : Image := ⟨1, 1, fun _ _ => ⟨0, 0, 0, 0⟩⟩

/-- An all-good viewport environment: capture succeeds, the reference
exists and is pixel-identical to the candidate. -/
def okViewportEnv : ViewportEnv :=
  { shotOk := true, refExists := true, actualImg := unitImage, refImg := unitImage }

/-- An environment for every viewport: every capture succeeds and every
reference is identical to its candidate. -/
def envAllOk : String → ViewportEnv := fun _ => okViewportEnv

/-- An environment where the desktop capture raises while the mobile
viewport would succeed end to end. -/
def envC1 : String → ViewportEnv := fun l =>
  if l = "desktop" then { okViewportEnv with shotOk := false } else okViewportEnv

/-- An environment where the desktop candidate and reference have
different pixel dimensions (1×1 vs 2×2) and everything else succeeds. -/
def envC2 : String → ViewportEnv := fun l =>
  if l = "desktop" then { okViewportEnv with refImg := twoImage } else okViewportEnv

/-- An environment where the desktop reference image is absent and the
mobile viewport succeeds end to end. -/
def envC7 : String → ViewportEnv := fun l =>
  if l = "desktop" then { okViewportEnv with refExists := false } else okViewportEnv

/-- The run result of `main envC7`: a single report write with a Skipped
section for desktop and a compared Pass section for mobile; only the
mobile diff artifact is saved. -/
def resC7 : RunResult :=
  { reportWrites := [[ReportEntry.header,
      ReportEntry.viewportSection (ReportSection.skipped "desktop"),
      ReportEntry.viewportSection (ReportSection.compared "mobile" 0 Status.pass),
      ReportEntry.hints]],
    diffs := ["mobile"] }

/-- The run result of `main envAllOk`: a single report write with a
compared Pass section per viewport, and both diff artifacts saved. -/
def resAllOk : RunResult :=
  { reportWrites := [[ReportEntry.header,
      ReportEntry.viewportSection (ReportSection.compared "desktop" 0 Status.pass),
      ReportEntry.viewportSection (ReportSection.compared "mobile" 0 Status.pass),
      ReportEntry.hints]],
    diffs := ["desktop", "mobile"] }

end Review

deriving instance DecidableEq for Except

namespace Review

/-! ### Basic facts about the image operations -/

/-- The pixel list of an "L" image has `height * width` entries. -/
theorem ImageL.getdata_length (im : ImageL) :
    im.getdata.length = im.height * im.width := by
  simp [ImageL.getdata, List.length_flatMap, Function.comp_def,
    List.map_const', List.sum_const_nat]

/-- `pixelPairs` enumerates `height * width` candidate/reference pairs. -/
theorem pixelPairs_length (a b : Image) :
    (pixelPairs a b).length = a.height * a.width := by
  simp [pixelPairs, List.length_flatMap, Function.comp_def,
    List.map_const', List.sum_const_nat]

/-- Every member of `pixelPairs a b` is the pair of pixels of the two
images at some in-range coordinate. -/
theorem pixelPairs_mem {a b : Image} {pq : RGBA × RGBA}
    (h : pq ∈ pixelPairs a b) :
    ∃ x y, x < a.width ∧ y < a.height ∧ pq = (a.pix x y, b.pix x y) := by
  simp only [pixelPairs, List.mem_flatMap, List.mem_map, List.mem_range] at h
  obtain ⟨y, hy, x, hx, rfl⟩ := h
  exact ⟨x, y, hx, hy, rfl⟩

/-- The luminance data of the difference image, pixel pair by pixel
pair. -/
theorem getdata_convertL_diffImage (a b : Image) :
    (diffImage a b).convertL.getdata
      = (pixelPairs a b).map fun pq => luma (chDiff pq.1 pq.2) := by
  simp only [ImageL.getdata, Image.convertL, diffImage, pixelPairs,
    List.map_flatMap, List.map_map, Function.comp_def]

/-- Per-channel absolute difference is symmetric. -/
theorem chDiff_comm (p q : RGBA) : chDiff p q = chDiff q p := by
  simp [chDiff, Nat.dist_comm]

/-- The difference of a pixel with itself is zero on every channel. -/
theorem chDiff_self (p : RGBA) : chDiff p p = ⟨0, 0, 0, 0⟩ := by
  simp [chDiff, Nat.dist_self]

/-- Luminance of the all-zero pixel. -/
theorem luma_zero : luma ⟨0, 0, 0, 0⟩ = 0 := by
  simp [luma]

/-- Luminance ignores the alpha channel. -/
theorem luma_alpha (r g b a a' : Nat) :
    luma ⟨r, g, b, a⟩ = luma ⟨r, g, b, a'⟩ := rfl

/-- The normalized reference always has the candidate's size. -/
theorem normRef_size (a b : Image) : (normRef a b).size = a.size := by
  unfold normRef
  split
  · rfl
  · next h => exact (not_ne_iff.mp h).symm

/-- When the sizes already agree, no resize happens. -/
theorem normRef_of_size_eq {a b : Image} (h : a.size = b.size) :
    normRef a b = b := by
  unfold normRef
  exact if_neg (not_ne_iff.mpr h)

/-- `mismatch_ratio` never raises: it returns the fraction of pixels of
the difference image (candidate against normalized reference) whose
luminance is nonzero, over the candidate's pixel count. -/
theorem mismatch_ratio_eq (a b : Image) :
    mismatch_ratio a b =
      .ok ((((pixelPairs a (normRef a b)).countP
            (fun pq => luma (chDiff pq.1 pq.2) != 0) : Nat) : ℚ)
        / ((a.width * a.height : Nat) : ℚ)) := by
  have h1 : mismatch_ratio a b =
      match ImageChops_difference a (normRef a b) with
      | Except.error msg => Except.error msg
      | Except.ok d =>
        Except.ok (((d.convertL.getdata.countP (fun px => px != 0) : Nat) : ℚ)
          / ((d.convertL.width * d.convertL.height : Nat) : ℚ)) := rfl
  have h2 : ImageChops_difference a (normRef a b)
      = Except.ok (diffImage a (normRef a b)) := by
    rw [ImageChops_difference, if_pos (normRef_size a b).symm]
  rw [h1, h2]
  simp only [getdata_convertL_diffImage, List.countP_map, Function.comp_def]
  rfl

/-- `mismatch_ratio` of an image against itself is zero. -/
theorem mismatch_ratio_self (im : Image) : mismatch_ratio im im = .ok 0 := by
  rw [mismatch_ratio_eq, normRef_of_size_eq rfl]
  have hc : (pixelPairs im im).countP
      (fun pq => luma (chDiff pq.1 pq.2) != 0) = 0 := by
    rw [List.countP_eq_zero]
    intro pq hpq
    obtain ⟨x, y, -, -, rfl⟩ := pixelPairs_mem hpq
    simp [chDiff_self, luma_zero]
  rw [hc]
  norm_num

/-- A zero ratio is a Pass. -/
theorem status_of_zero : status_of 0 = Status.pass := by
  rw [status_of, if_neg]
  norm_num [THRESHOLD]

/-! ### Facts about one viewport iteration and the run loop -/

/-- A failed capture raises out of the viewport iteration. -/
theorem processViewport_shotFail {e : ViewportEnv} (l : String)
    (h : e.shotOk = false) :
    processViewport e l = .error "screenshot failed" := by
  simp [processViewport, screenshot, h]

/-- A missing reference yields the Skipped section, with no diff saved
and no error. -/
theorem processViewport_skip {e : ViewportEnv} (l : String)
    (hs : e.shotOk = true) (hr : e.refExists = false) :
    processViewport e l = .ok (ReportSection.skipped l, false) := by
  simp [processViewport, screenshot, hs, hr]

/-- A successful viewport iteration produces a section about its own
viewport label. -/
theorem processViewport_label {e : ViewportEnv} {l : String}
    {sec : ReportSection} {saved : Bool}
    (h : processViewport e l = .ok (sec, saved)) : sectionLabel sec = l := by
  unfold processViewport at h
  split at h
  · exact absurd h (by simp)
  · split at h
    · obtain ⟨rfl, -⟩ := Prod.mk.injEq .. ▸ (Except.ok.injEq .. ▸ h)
      rfl
    · split at h
      · exact absurd h (by simp)
      · split at h
        · exact absurd h (by simp)
        · obtain ⟨rfl, -⟩ := Prod.mk.injEq .. ▸ (Except.ok.injEq .. ▸ h)
          rfl

/-- If the reference was missing and the iteration succeeded, the result
can only be the Skipped section with no diff saved. -/
theorem processViewport_skipped_of_ok {e : ViewportEnv} {l : String}
    {sec : ReportSection} {saved : Bool}
    (h : processViewport e l = .ok (sec, saved)) (hr : e.refExists = false) :
    sec = ReportSection.skipped l ∧ saved = false := by
  unfold processViewport at h
  split at h
  · exact absurd h (by simp)
  · rw [if_pos hr] at h
    obtain ⟨h1, h2⟩ := Prod.mk.injEq .. ▸ (Except.ok.injEq .. ▸ h)
    exact ⟨h1.symm, h2.symm⟩

/-- An identical-reference viewport compares to ratio 0 and passes,
saving its diff. -/
theorem processViewport_identical (l : String) :
    processViewport okViewportEnv l
      = .ok (ReportSection.compared l 0 Status.pass, true) := by
  have hm : mismatch_ratio unitImage unitImage = .ok 0 :=
    mismatch_ratio_self unitImage
  have hd : ImageChops_difference unitImage unitImage
      = Except.ok (diffImage unitImage unitImage) := by
    rw [ImageChops_difference]
    exact if_pos rfl
  simp [processViewport, screenshot, okViewportEnv, hm, hd, status_of_zero]

/-- The sections a successful run produces are labelled by the processed
viewports, in order. -/
theorem runViewports_labels {env : String → ViewportEnv} :
    ∀ {vps : List (String × Nat × Nat)} {secs : List ReportSection}
      {diffs : List String},
      runViewports env vps = .ok (secs, diffs) →
      secs.map sectionLabel = vps.map (fun v => v.1)
  | [], secs, diffs, h => by
    obtain ⟨rfl, -⟩ := Prod.mk.injEq .. ▸ (Except.ok.injEq .. ▸ h)
    rfl
  | (l, w, ht) :: rest, secs, diffs, h => by
    unfold runViewports at h
    split at h
    · exact absurd h (by simp)
    · next sec saved heq =>
      split at h
      · exact absurd h (by simp)
      · next secs' diffs' heq' =>
        obtain ⟨h1, -⟩ := Prod.mk.injEq .. ▸ (Except.ok.injEq .. ▸ h)
        subst h1
        simp only [List.map_cons]
        rw [processViewport_label heq, runViewports_labels heq']

/-- A capture failure at any registered viewport makes the whole loop
raise. -/
theorem runViewports_error_of_shotFail {env : String → ViewportEnv}
    {l : String} {w ht : Nat} :
    ∀ {vps : List (String × Nat × Nat)}, (l, w, ht) ∈ vps →
      (env l).shotOk = false → ∃ msg, runViewports env vps = .error msg
  | [], hmem, _ => absurd hmem (List.not_mem_nil _)
  | (l', w', h') :: rest, hmem, hshot => by
    rcases List.mem_cons.mp hmem with heq | htail
    · obtain ⟨rfl, -, -⟩ := Prod.mk.injEq .. ▸ heq
      refine ⟨"screenshot failed", ?_⟩
      unfold runViewports
      rw [processViewport_shotFail l hshot]
    · obtain ⟨msg, hrest⟩ := runViewports_error_of_shotFail htail hshot
      unfold runViewports
      rcases hp : processViewport (env l') l' with msg' | ⟨sec, saved⟩
      · exact ⟨msg', rfl⟩
      · exact ⟨msg, by simp [hrest]⟩

/-- A successful run gives every missing-reference viewport its Skipped
section. -/
theorem runViewports_skipped_mem {env : String → ViewportEnv}
    {l : String} {w ht : Nat} :
    ∀ {vps : List (String × Nat × Nat)} {secs : List ReportSection}
      {diffs : List String},
      runViewports env vps = .ok (secs, diffs) → (l, w, ht) ∈ vps →
      (env l).refExists = false → ReportSection.skipped l ∈ secs
  | [], secs, diffs, _, hmem, _ => absurd hmem (List.not_mem_nil _)
  | (l', w', h') :: rest, secs, diffs, h, hmem, href => by
    unfold runViewports at h
    split at h
    · exact absurd h (by simp)
    · next sec saved heq =>
      split at h
      · exact absurd h (by simp)
      · next secs' diffs' heq' =>
        obtain ⟨h1, -⟩ := Prod.mk.injEq .. ▸ (Except.ok.injEq .. ▸ h)
        subst h1
        rcases List.mem_cons.mp hmem with hhead | htail
        · obtain ⟨rfl, -, -⟩ := Prod.mk.injEq .. ▸ hhead
          obtain ⟨rfl, -⟩ := processViewport_skipped_of_ok heq href
          exact List.mem_cons_self _ _
        · exact List.mem_cons_of_mem _
            (runViewports_skipped_mem heq' htail href)

/-- A successful run saves no diff artifact for a missing-reference
viewport's label. -/
theorem runViewports_diff_not_mem {env : String → ViewportEnv}
    {l : String} :
    ∀ {vps : List (String × Nat × Nat)} {secs : List ReportSection}
      {diffs : List String},
      runViewports env vps = .ok (secs, diffs) →
      (env l).refExists = false → l ∉ diffs
  | [], secs, diffs, h, _ => by
    obtain ⟨-, h2⟩ := Prod.mk.injEq .. ▸ (Except.ok.injEq .. ▸ h)
    subst h2
    exact List.not_mem_nil _
  | (l', w', h') :: rest, secs, diffs, h, href => by
    unfold runViewports at h
    split at h
    · exact absurd h (by simp)
    · next sec saved heq =>
      split at h
      · exact absurd h (by simp)
      · next secs' diffs' heq' =>
        obtain ⟨-, h2⟩ := Prod.mk.injEq .. ▸ (Except.ok.injEq .. ▸ h)
        subst h2
        intro hmem
        rcases List.mem_append.mp hmem with hin | hin
        · by_cases hl : l' = l
          · subst hl
            obtain ⟨-, rfl⟩ := processViewport_skipped_of_ok heq href
            simp at hin
          · rcases saved with - | -
            · simp at hin
            · simp at hin
              exact hl hin.symm
        · exact runViewports_diff_not_mem heq' href hin

/-- A successful `main` is exactly one report write wrapped around the
loop's sections, with the loop's saved diffs. -/
theorem main_ok_iff {env : String → ViewportEnv} {res : RunResult} :
    main env = .ok res ↔
      ∃ secs diffs, runViewports env VIEWPORTS = .ok (secs, diffs) ∧
        res = { reportWrites := [[ReportEntry.header]
                  ++ secs.map ReportEntry.viewportSection
                  ++ [ReportEntry.hints]],
                diffs := diffs } := by
  unfold main
  constructor
  · intro h
    split at h
    · exact absurd h (by simp)
    · next secs diffs heq =>
      exact ⟨secs, diffs, heq, ((Except.ok.injEq .. ▸ h)).symm⟩
  · rintro ⟨secs, diffs, heq, rfl⟩
    rw [heq]

/-! ### Concrete runs -/

/-- With every capture succeeding and every reference identical to its
candidate, the run writes the all-Pass report once and saves both
diffs. -/
theorem main_envAllOk : main envAllOk = Except.ok resAllOk := by
  have h1 : processViewport (envAllOk "desktop") "desktop"
      = .ok (ReportSection.compared "desktop" 0 Status.pass, true) :=
    processViewport_identical "desktop"
  have h2 : processViewport (envAllOk "mobile") "mobile"
      = .ok (ReportSection.compared "mobile" 0 Status.pass, true) :=
    processViewport_identical "mobile"
  simp [main, runViewports, VIEWPORTS, h1, h2, resAllOk]

/-- With the desktop reference missing, the run still completes: one
report write with a Skipped desktop section and a Pass mobile section,
and only the mobile diff saved. -/
theorem main_envC7 : main envC7 = Except.ok resC7 := by
  have hd : envC7 "desktop" = { okViewportEnv with refExists := false } :=
    if_pos rfl
  have hm : envC7 "mobile" = okViewportEnv := if_neg (by decide)
  have h1 : processViewport (envC7 "desktop") "desktop"
      = .ok (ReportSection.skipped "desktop", false) := by
    rw [hd]
    exact processViewport_skip "desktop" rfl rfl
  have h2 : processViewport (envC7 "mobile") "mobile"
      = .ok (ReportSection.compared "mobile" 0 Status.pass, true) := by
    rw [hm]
    exact processViewport_identical "mobile"
  simp [main, runViewports, VIEWPORTS, h1, h2, resC7]

/-! ### The claims -/

/-- C1 (counterexample): with the desktop capture raising and the mobile
viewport able to succeed end to end, the run does NOT continue to the
remaining viewport and does NOT write a report: `main` aborts with the
capture error, so there is no report artifact at all. -/
theorem C1_counterexample :
    (envC1 "desktop").shotOk = false ∧ (envC1 "mobile").shotOk = true
      ∧ (envC1 "mobile").refExists = true
      ∧ main envC1 = Except.error "screenshot failed" := by
  decide

/-- C1 (amended): a capture failure at any registered viewport aborts the
whole run — `main` propagates the error, processes no further viewport
and writes no report artifact. -/
theorem C1_abort_on_capture_failure :
    ∀ (env : String → ViewportEnv) (l : String) (w h : Nat),
      (l, w, h) ∈ VIEWPORTS → (env l).shotOk = false →
      ∃ msg, main env = Except.error msg := by
  intro env l w h hmem hshot
  obtain ⟨msg, hrun⟩ := runViewports_error_of_shotFail hmem hshot
  exact ⟨msg, by rw [main, hrun]⟩

/-- C1 (witness): the amended theorem applied to the concrete failing
environment. -/
theorem C1_abort_witness : ∃ msg, main envC1 = Except.error msg :=
  C1_abort_on_capture_failure envC1 "desktop" 1440 900 (by decide) (by decide)

/-- C2 (counterexample): with a 1×1 candidate and a 2×2 reference, the
per-viewport comparison step does NOT complete: the diff-image
production (`ImageChops.difference` on the unresized images) raises
`images do not match`, so the dimension mismatch IS surfaced as a
failure. -/
theorem C2_counterexample :
    (envC2 "desktop").actualImg.size ≠ (envC2 "desktop").refImg.size
      ∧ main envC2 = Except.error "images do not match" := by
  decide

/-- C2 (amended): the mismatch scoring itself resizes the reference and
never raises for any pair of images, but the diff-image production in
`main` uses the original images and raises exactly when the dimensions
differ. -/
theorem C2_scoring_total_diff_raises :
    (∀ a b : Image, ∃ q, mismatch_ratio a b = Except.ok q)
      ∧ (∀ a b : Image, a.size ≠ b.size →
          ImageChops_difference a b = Except.error "images do not match") := by
  constructor
  · exact fun a b => ⟨_, mismatch_ratio_eq a b⟩
  · intro a b h
    rw [ImageChops_difference, if_neg h]

/-- C2 (witness): the amended theorem at the concrete 1×1/2×2 pair. -/
theorem C2_witness :
    (∃ q, mismatch_ratio unitImage twoImage = Except.ok q)
      ∧ ImageChops_difference unitImage twoImage
          = Except.error "images do not match" :=
  ⟨C2_scoring_total_diff_raises.1 unitImage twoImage,
   C2_scoring_total_diff_raises.2 unitImage twoImage (by decide)⟩

/-- C3 (counterexample): two equal-sized 1×1 images whose only pixels
differ (red channel differs by 1) have `mismatch_ratio` 0, while the
spec's strict any-channel-differs metric gives 1: the implemented metric
does NOT count every pixel with a channel difference. -/
theorem C3_counterexample :
    unitImage.pix 0 0 ≠ almostBlackImage.pix 0 0
      ∧ unitImage.size = almostBlackImage.size
      ∧ mismatch_ratio unitImage almostBlackImage = Except.ok 0
      ∧ spec_mismatch_ratio unitImage almostBlackImage = 1 := by
  refine ⟨by decide, rfl, ?_, ?_⟩
  · rw [mismatch_ratio_eq, @normRef_of_size_eq unitImage almostBlackImage rfl]
    have hc : (pixelPairs unitImage almostBlackImage).countP
        (fun pq => luma (chDiff pq.1 pq.2) != 0) = 0 := by decide
    rw [hc]
    norm_num
  · rw [spec_mismatch_ratio]
    have hc : (pixelPairs unitImage almostBlackImage).countP
        (fun pq => pq.1 != pq.2) = 1 := by decide
    rw [hc]
    norm_num [unitImage]

/-- C3 (amended): for equal-sized images, `mismatch_ratio` counts the
pixels whose luminance of the per-channel absolute difference is
nonzero; that count never exceeds the spec's strict any-channel-differs
fraction (and, per the counterexample, can fall strictly below it). -/
theorem C3_luma_undercounts :
    ∀ a b : Image, a.size = b.size →
      ∃ q, mismatch_ratio a b = Except.ok q
        ∧ q ≤ spec_mismatch_ratio a b := by
  intro a b h
  refine ⟨_, mismatch_ratio_eq a b, ?_⟩
  rw [normRef_of_size_eq h, spec_mismatch_ratio]
  have hmono : (pixelPairs a b).countP (fun pq => luma (chDiff pq.1 pq.2) != 0)
      ≤ (pixelPairs a b).countP (fun pq => pq.1 != pq.2) := by
    apply List.countP_mono_left
    rintro ⟨p, q⟩ - hl
    simp only [bne_iff_ne, ne_eq, decide_not] at hl ⊢
    intro hpq
    rw [hpq] at hl
    exact hl (by rw [chDiff_self, luma_zero])
  rcases Nat.eq_zero_or_pos (a.width * a.height) with hz | hpos
  · rw [hz]
    norm_num
  · have hT : (0:ℚ) < ((a.width * a.height : Nat) : ℚ) := by exact_mod_cast hpos
    rw [div_le_div_iff_of_pos_right hT]
    exact_mod_cast hmono

/-- C3 (witness): the amended theorem at the concrete 1×1 pair. -/
theorem C3_witness :
    ∃ q, mismatch_ratio unitImage almostBlackImage = Except.ok q
      ∧ q ≤ spec_mismatch_ratio unitImage almostBlackImage :=
  C3_luma_undercounts unitImage almostBlackImage rfl

/-- C4: the Pass/Fail decision is a strict greater-than test against
`THRESHOLD`: the status is Fail iff the ratio strictly exceeds
`THRESHOLD`, and a ratio exactly equal to `THRESHOLD` is a Pass. -/
theorem C4_strict_threshold :
    (∀ q : ℚ, status_of q = Status.fail ↔ THRESHOLD < q)
      ∧ status_of THRESHOLD = Status.pass := by
  constructor
  · intro q
    rw [status_of]
    split
    · next hlt => simp [hlt]
    · next hlt => simp [hlt]
  · rw [status_of, if_neg (lt_irrefl THRESHOLD)]

/-- C5: comparing any image against an identical copy of itself gives
`mismatch_ratio` 0, and a zero ratio is a Pass. -/
theorem C5_identical_pass :
    ∀ im : Image, mismatch_ratio im im = Except.ok 0
      ∧ status_of 0 = Status.pass :=
  fun im => ⟨mismatch_ratio_self im, status_of_zero⟩

/-- C6: for images of equal pixel dimensions (so no resize is
triggered), `mismatch_ratio` is symmetric in its two arguments. -/
theorem C6_symmetric :
    ∀ a b : Image, a.size = b.size →
      mismatch_ratio a b = mismatch_ratio b a := by
  intro a b h
  have hw : a.width = b.width := congrArg Prod.fst h
  have hh : a.height = b.height := congrArg Prod.snd h
  rw [mismatch_ratio_eq, mismatch_ratio_eq, normRef_of_size_eq h,
    normRef_of_size_eq h.symm]
  have hswap : pixelPairs b a = (pixelPairs a b).map Prod.swap := by
    rw [pixelPairs, pixelPairs, ← hw, ← hh, List.map_flatMap]
    refine congrArg _ (funext fun y => ?_)
    rw [List.map_map]
    rfl
  have hfun : ((fun pq : RGBA × RGBA => luma (chDiff pq.1 pq.2) != 0)
        ∘ Prod.swap)
      = fun pq : RGBA × RGBA => luma (chDiff pq.1 pq.2) != 0 := by
    funext pq
    simp only [Function.comp_apply, Prod.fst_swap, Prod.snd_swap,
      chDiff_comm pq.2 pq.1]
  rw [hswap, List.countP_map, hfun, hw, hh]

/-- C6 (witness): symmetry at a concrete equal-sized pair. -/
theorem C6_witness :
    mismatch_ratio unitImage almostBlackImage
      = mismatch_ratio almostBlackImage unitImage :=
  C6_symmetric unitImage almostBlackImage rfl

/-- C7: a missing reference is never an uncaught error: the viewport's
iteration succeeds with a Skipped section (a distinct outcome, not a
Pass/Fail) and saves no diff; in any completed run, such a viewport's
Skipped section is in the single report write, and its label is not
among the saved diff artifacts. -/
theorem C7_missing_reference :
    (∀ (e : ViewportEnv) (l : String), e.shotOk = true → e.refExists = false →
        processViewport e l = Except.ok (ReportSection.skipped l, false))
      ∧ (∀ (env : String → ViewportEnv) (res : RunResult) (l : String)
          (w h : Nat),
          main env = Except.ok res → (l, w, h) ∈ VIEWPORTS →
          (env l).refExists = false →
          (∃ entries, res.reportWrites = [entries]
            ∧ ReportEntry.viewportSection (ReportSection.skipped l) ∈ entries)
          ∧ l ∉ res.diffs) := by
  constructor
  · exact fun e l hs hr => processViewport_skip l hs hr
  · intro env res l w h hmain hmem href
    obtain ⟨secs, diffs, hrun, rfl⟩ := main_ok_iff.mp hmain
    refine ⟨⟨_, rfl, ?_⟩, runViewports_diff_not_mem hrun href⟩
    exact List.mem_append.mpr (Or.inl (List.mem_append.mpr
      (Or.inr (List.mem_map_of_mem _ (runViewports_skipped_mem hrun hmem href)))))

/-- C7 (witness): the theorem at the concrete run whose desktop
reference is missing. -/
theorem C7_witness :
    processViewport (envC7 "desktop") "desktop"
        = Except.ok (ReportSection.skipped "desktop", false)
      ∧ ((∃ entries, resC7.reportWrites = [entries]
            ∧ ReportEntry.viewportSection (ReportSection.skipped "desktop")
                ∈ entries)
          ∧ "desktop" ∉ resC7.diffs) :=
  ⟨C7_missing_reference.1 (envC7 "desktop") "desktop" (by decide) (by decide),
   C7_missing_reference.2 envC7 resC7 "desktop" 1440 900 main_envC7
     (by decide) (by decide)⟩

/-- C8: every completed run writes the report exactly once, and that
single write is the header, then one section per registered viewport in
registry order, then the static hints block. -/
theorem C8_report_shape :
    ∀ (env : String → ViewportEnv) (res : RunResult),
      main env = Except.ok res →
      ∃ secs : List ReportSection,
        res.reportWrites = [[ReportEntry.header]
            ++ secs.map ReportEntry.viewportSection ++ [ReportEntry.hints]]
          ∧ secs.map sectionLabel = VIEWPORTS.map (fun v => v.1) := by
  intro env res hmain
  obtain ⟨secs, diffs, hrun, rfl⟩ := main_ok_iff.mp hmain
  exact ⟨secs, rfl, runViewports_labels hrun⟩

/-- C8 (witness): the report shape of the concrete all-Pass run. -/
theorem C8_witness :
    ∃ secs : List ReportSection,
      resAllOk.reportWrites = [[ReportEntry.header]
          ++ secs.map ReportEntry.viewportSection ++ [ReportEntry.hints]]
        ∧ secs.map sectionLabel = VIEWPORTS.map (fun v => v.1) :=
  C8_report_shape envAllOk resAllOk main_envAllOk

/-- C9: for a candidate with positive dimensions, `mismatch_ratio`
returns (without error) a ratio in `[0, 1]`: the mismatched-pixel count
is at most, and the denominator is exactly, the candidate's pixel
count. -/
theorem C9_ratio_in_unit_interval :
    ∀ a b : Image, 0 < a.width → 0 < a.height →
      ∃ q, mismatch_ratio a b = Except.ok q ∧ 0 ≤ q ∧ q ≤ 1 := by
  intro a b hw hh
  refine ⟨_, mismatch_ratio_eq a b, ?_, ?_⟩
  · exact div_nonneg (Nat.cast_nonneg _) (Nat.cast_nonneg _)
  · have hT : (0:ℚ) < ((a.width * a.height : Nat) : ℚ) := by
      exact_mod_cast Nat.mul_pos hw hh
    rw [div_le_one hT]
    have hle : (pixelPairs a (normRef a b)).countP
        (fun pq => luma (chDiff pq.1 pq.2) != 0) ≤ a.width * a.height := by
      calc (pixelPairs a (normRef a b)).countP
            (fun pq => luma (chDiff pq.1 pq.2) != 0)
          ≤ (pixelPairs a (normRef a b)).length := List.countP_le_length _
        _ = a.height * a.width := pixelPairs_length _ _
        _ = a.width * a.height := Nat.mul_comm _ _
    exact_mod_cast hle

/-- C9 (witness): the bounds at a concrete pair with differing sizes. -/
theorem C9_witness :
    ∃ q, mismatch_ratio unitImage twoImage = Except.ok q
      ∧ 0 ≤ q ∧ q ≤ 1 :=
  C9_ratio_in_unit_interval unitImage twoImage (by decide) (by decide)

/-- C10: for equal-sized images identical on the R, G and B channels of
every in-range pixel (the alpha channels may differ arbitrarily),
`mismatch_ratio` is 0 — the luminance collapse discards alpha — and the
zero ratio is reported as Pass. -/
theorem C10_alpha_only_invisible :
    ∀ a b : Image, a.size = b.size →
      (∀ x y, x < a.width → y < a.height →
        (a.pix x y).r = (b.pix x y).r ∧ (a.pix x y).g = (b.pix x y).g
          ∧ (a.pix x y).b = (b.pix x y).b) →
      mismatch_ratio a b = Except.ok 0 ∧ status_of 0 = Status.pass := by
  intro a b h hrgb
  refine ⟨?_, status_of_zero⟩
  rw [mismatch_ratio_eq, normRef_of_size_eq h]
  have hc : (pixelPairs a b).countP
      (fun pq => luma (chDiff pq.1 pq.2) != 0) = 0 := by
    rw [List.countP_eq_zero]
    intro pq hpq
    obtain ⟨x, y, hx, hy, rfl⟩ := pixelPairs_mem hpq
    obtain ⟨hr, hg, hb⟩ := hrgb x y hx hy
    simp only [bne_iff_ne, ne_eq, not_not]
    rw [chDiff, hr, hg, hb]
    simp [luma, Nat.dist_self]
  rw [hc]
  norm_num

/-- C10 (witness): the theorem at a 1×1 pair differing only in alpha
(opaque vs fully transparent). -/
theorem C10_witness :
    mismatch_ratio unitImage alphaZeroImage = Except.ok 0
      ∧ status_of 0 = Status.pass :=
  C10_alpha_only_invisible unitImage alphaZeroImage rfl
    (fun _ _ _ _ => ⟨rfl, rfl, rfl⟩)

end Review
